import Mathlib

/-!
# SCIM users API (package identity, users.go)

A shallow embedding of `identity/users.go`: the mapping between the
resource-facing `UserEntity` and the wire-facing `ScimUser`, and the sequence
of transport calls that every operation of `UsersAPI` issues.

The transport (`common.DatabricksClient.Scim`) is an external collaborator.  It
is embedded as an arbitrary deterministic state machine over a state type `σ`;
every call made through it is appended to a trace, so that statements about
"which calls are issued, in which order, with which arguments" are statements
about that trace.
-/

namespace Identity

/-- Go type `Entitlement`, a named string type. -/
abbrev Entitlement := String

/-- Go type `URN`, a named string type. -/
abbrev URN := String

/-- Modelled from the spec: the declarations that users.go uses and that are
declared in other files of the package or in imported packages.  The types
(`context.Context`, `error`, the items of the group and role references, the
opaque `patchRequest`) and the three constants (`UserSchema`,
`AllowClusterCreateEntitlement`, `AllowInstancePoolCreateEntitlement`) are
parameters of the development. -/
structure Decls where
  Context : Type
  Error : Type
  GroupsListItem : Type
  RolesListItem : Type
  patchRequest : Type
  UserSchema : URN
  AllowClusterCreateEntitlement : Entitlement
  AllowInstancePoolCreateEntitlement : Entitlement

/-- Modelled from the spec: the struct `entitlementsListItem` is declared
outside users.go; users.go reads and writes its field `Value` only. -/
structure entitlementsListItem where
  Value : Entitlement
deriving DecidableEq, Repr

/-- Modelled from the spec: the struct `ScimUser` (the wire user) is declared
outside users.go.  It has the fields users.go touches: the schema list, user
name, active flag, display name, entitlement records, and the group and role
references. -/
structure ScimUser (D : Decls) where
  Schemas : List URN
  UserName : String
  Active : Bool
  DisplayName : String
  Entitlements : List entitlementsListItem
  Groups : List D.GroupsListItem
  Roles : List D.RolesListItem

/-- Modelled from the spec: the struct `UserList` is declared outside
users.go; users.go reads its field `Resources` only. -/
structure UserList (D : Decls) where
  Resources : List (ScimUser D)

/-- Go struct `UserEntity`. -/
structure UserEntity where
  UserName : String
  DisplayName : String
  Active : Bool
  AllowClusterCreate : Bool
  AllowSQLAnalyticsAccess : Bool
  AllowInstancePoolCreate : Bool
deriving DecidableEq, Repr

/-- The zero value of `UserEntity`. -/
def UserEntity.zero : UserEntity :=
  { UserName := "", DisplayName := "", Active := false, AllowClusterCreate := false,
    AllowSQLAnalyticsAccess := false, AllowInstancePoolCreate := false }

/-- Go method `UserEntity.toRequest`: the entitlement slice starts empty and
gets one appended record per true flag; `Groups` and `Roles` are left at their
zero value. -/
def UserEntity.toRequest (D : Decls) (u : UserEntity) : ScimUser D :=
  let entitlements : List entitlementsListItem := []
  let entitlements :=
    if u.AllowClusterCreate then entitlements ++ [{ Value := "allow-cluster-create" }]
    else entitlements
  let entitlements :=
    if u.AllowSQLAnalyticsAccess then entitlements ++ [{ Value := "sql-analytics-access" }]
    else entitlements
  let entitlements :=
    if u.AllowInstancePoolCreate then entitlements ++ [{ Value := "allow-instance-pool-create" }]
    else entitlements
  { Schemas := [D.UserSchema]
    UserName := u.UserName
    Active := u.Active
    DisplayName := u.DisplayName
    Entitlements := entitlements
    Groups := []
    Roles := [] }

/-! ## The transport -/

/-- The `request interface{}` argument of `Scim`, as users.go passes it: `nil`,
a `ScimUser`, a `map[string]string` of query parameters (an association list),
or a `patchRequest`. -/
inductive Request (D : Decls) where
  | nil
  | scimUser (u : ScimUser D)
  | params (m : List (String × String))
  | patch (r : D.patchRequest)

/-- The `response interface{}` argument of `Scim`, as users.go passes it:
`nil`, a pointer to a `ScimUser`, or a pointer to a `UserList`. -/
inductive Dest where
  | nil
  | scimUser
  | userList
deriving DecidableEq, Repr

/-- What the destination holds once `Scim` has returned. -/
def Dest.Val (D : Decls) : Dest → Type
  | .nil => Unit
  | .scimUser => ScimUser D
  | .userList => UserList D

/-- Constants of `net/http`. -/
def http.MethodGet : String := "GET"

def http.MethodPost : String := "POST"

def http.MethodPut : String := "PUT"

def http.MethodPatch : String := "PATCH"

def http.MethodDelete : String := "DELETE"

/-- One call of `Scim` with all its arguments. -/
structure Call (D : Decls) where
  ctx : D.Context
  method : String
  path : String
  request : Request D
  response : Dest

/-- The external collaborator `common.DatabricksClient`: `Scim` takes the
context, method, path, request and response destination, and, from the current
state of the transport and the remote service, yields the error (`none` is Go
`nil`), the value the destination holds afterwards, and the next state. -/
structure DatabricksClient (D : Decls) (σ : Type) where
  Scim : D.Context → String → String → Request D → (response : Dest) → σ →
    (Option D.Error × response.Val D) × σ

/-- Go struct `UsersAPI`. -/
structure UsersAPI (D : Decls) (σ : Type) where
  client : DatabricksClient D σ
  context : D.Context

/-- The state threaded through the operations: the state of the transport and
the trace of the calls issued so far, oldest first. -/
structure World (D : Decls) (σ : Type) where
  remote : σ
  trace : List (Call D)

/-- The expression `a.client.Scim(a.context, method, path, request, response)`:
the call is recorded and the transport steps. -/
def UsersAPI.scim {D : Decls} {σ : Type} (a : UsersAPI D σ) (method path : String)
    (request : Request D) (response : Dest) (w : World D σ) :
    (Option D.Error × response.Val D) × World D σ :=
  let r := a.client.Scim a.context method path request response w.remote
  (r.1, { remote := r.2,
          trace := w.trace ++ [{ ctx := a.context, method := method, path := path,
                                 request := request, response := response }] })

/-! ## The operations of `UsersAPI` -/

/-- Go method `UsersAPI.Create`. -/
def UsersAPI.Create {D : Decls} {σ : Type} (a : UsersAPI D σ) (ru : UserEntity)
    (w : World D σ) : (ScimUser D × Option D.Error) × World D σ :=
  let r := a.scim http.MethodPost "/preview/scim/v2/Users"
    (.scimUser (ru.toRequest D)) .scimUser w
  ((r.1.2, r.1.1), r.2)

/-- Go method `UsersAPI.Filter`: the parameter map starts empty and gets the
key `filter` only when the filter is not the empty string. -/
def UsersAPI.Filter {D : Decls} {σ : Type} (a : UsersAPI D σ) (filter : String)
    (w : World D σ) : (List (ScimUser D) × Option D.Error) × World D σ :=
  let req : List (String × String) := []
  let req := if filter ≠ "" then ("filter", filter) :: req else req
  let r := a.scim http.MethodGet "/preview/scim/v2/Users" (.params req) .userList w
  match r.1.1 with
  | some err => (([], some err), r.2)
  | none => ((UserList.Resources r.1.2, none), r.2)

/-- Go method `UsersAPI.readByPath`. -/
def UsersAPI.readByPath {D : Decls} {σ : Type} (a : UsersAPI D σ) (userPath : String)
    (w : World D σ) : (ScimUser D × Option D.Error) × World D σ :=
  let r := a.scim http.MethodGet userPath .nil .scimUser w
  ((r.1.2, r.1.1), r.2)

/-- Go method `UsersAPI.read`; `%v` of a string is the string itself. -/
def UsersAPI.read {D : Decls} {σ : Type} (a : UsersAPI D σ) (userID : String)
    (w : World D σ) : (ScimUser D × Option D.Error) × World D σ :=
  let userPath := "/preview/scim/v2/Users/" ++ userID
  a.readByPath userPath w

/-- The body of the loop of `UsersAPI.Read`: the `switch` on `ent.Value`. -/
def readEntitlement (D : Decls) (ru : UserEntity) (ent : entitlementsListItem) : UserEntity :=
  if ent.Value = D.AllowClusterCreateEntitlement then
    { ru with AllowClusterCreate := true }
  else if ent.Value = D.AllowInstancePoolCreateEntitlement then
    { ru with AllowInstancePoolCreate := true }
  else ru

/-- Go method `UsersAPI.Read`. -/
def UsersAPI.Read {D : Decls} {σ : Type} (a : UsersAPI D σ) (userID : String)
    (w : World D σ) : (UserEntity × Option D.Error) × World D σ :=
  let r := a.read userID w
  let user := r.1.1
  match r.1.2 with
  | some err => ((UserEntity.zero, some err), r.2)
  | none =>
    let ru := { UserEntity.zero with
      UserName := user.UserName, DisplayName := user.DisplayName, Active := user.Active }
    let ru := user.Entitlements.foldl (readEntitlement D) ru
    ((ru, none), r.2)

/-- Go method `UsersAPI.Me`. -/
def UsersAPI.Me {D : Decls} {σ : Type} (a : UsersAPI D σ)
    (w : World D σ) : (ScimUser D × Option D.Error) × World D σ :=
  a.readByPath "/preview/scim/v2/Me" w

/-- Go method `UsersAPI.Update`. -/
def UsersAPI.Update {D : Decls} {σ : Type} (a : UsersAPI D σ) (userID : String)
    (ru : UserEntity) (w : World D σ) : Option D.Error × World D σ :=
  let r := a.read userID w
  let user := r.1.1
  match r.1.2 with
  | some err => (some err, r.2)
  | none =>
    let updateRequest := ru.toRequest D
    let updateRequest := { updateRequest with Groups := user.Groups }
    let updateRequest := { updateRequest with Roles := user.Roles }
    let p := a.scim http.MethodPut ("/preview/scim/v2/Users/" ++ userID)
      (.scimUser updateRequest) .nil r.2
    (p.1.1, p.2)

/-- Go method `UsersAPI.Patch`. -/
def UsersAPI.Patch {D : Decls} {σ : Type} (a : UsersAPI D σ) (userID : String)
    (r : D.patchRequest) (w : World D σ) : Option D.Error × World D σ :=
  let p := a.scim http.MethodPatch ("/preview/scim/v2/Users/" ++ userID) (.patch r) .nil w
  (p.1.1, p.2)

/-- Go method `UsersAPI.Delete`. -/
def UsersAPI.Delete {D : Decls} {σ : Type} (a : UsersAPI D σ) (userID : String)
    (w : World D σ) : Option D.Error × World D σ :=
  let userPath := "/preview/scim/v2/Users/" ++ userID
  let p := a.scim http.MethodDelete userPath .nil .nil w
  (p.1.1, p.2)

/-! ## Sample instances -/

/-- A concrete package: string-valued errors, group items, role items and
patch payloads; the two entitlement constants carry the tokens that
`toRequest` writes for the corresponding flags. -/
def sampleDecls : Decls :=
  { Context := Unit
    Error := String
    GroupsListItem := String
    RolesListItem := String
    patchRequest := String
    UserSchema := "urn:ietf:params:scim:schemas:core:2.0:User"
    AllowClusterCreateEntitlement := "allow-cluster-create"
    AllowInstancePoolCreateEntitlement := "allow-instance-pool-create" }

/-- A transport that answers every call with the same error status, the same
wire user and the same user list, and counts the calls it has served. -/
def constClient (D : Decls) (err : Option D.Error) (u : ScimUser D) (l : UserList D) :
    DatabricksClient D Nat :=
  { Scim := fun _ _ _ _ response n =>
      match response with
      | .nil => ((err, ()), n + 1)
      | .scimUser => ((err, u), n + 1)
      | .userList => ((err, l), n + 1) }

/-- A wire user with a display name, two entitlements, a group and a role. -/
def sampleUser : ScimUser sampleDecls :=
  { Schemas := ["urn:ietf:params:scim:schemas:core:2.0:User"]
    UserName := "ada@example.com"
    Active := true
    DisplayName := "Ada"
    Entitlements := [{ Value := "sql-analytics-access" }, { Value := "allow-cluster-create" }]
    Groups := ["admins"]
    Roles := ["arn:aws:iam::1:instance-profile/p"] }

/-- An entity with every capability flag set. -/
def sampleEntity : UserEntity :=
  { UserName := "ada@example.com", DisplayName := "Ada", Active := true,
    AllowClusterCreate := true, AllowSQLAnalyticsAccess := true,
    AllowInstancePoolCreate := true }

/-- A client whose every call succeeds and delivers `sampleUser`. -/
def okAPI : UsersAPI sampleDecls Nat :=
  { client := constClient sampleDecls none sampleUser { Resources := [sampleUser] }
    context := () }

/-- A client whose every call succeeds and delivers the wire user `u`. -/
def deliverAPI (u : ScimUser sampleDecls) : UsersAPI sampleDecls Nat :=
  { client := constClient sampleDecls none u { Resources := [u] }
    context := () }

/-- A client whose every call fails with the error `boom`. -/
def failAPI : UsersAPI sampleDecls Nat :=
  { client := constClient sampleDecls (some "boom") sampleUser { Resources := [sampleUser] }
    context := () }

/-- The initial state: nothing served, nothing recorded. -/
def world0 : World sampleDecls Nat :=
  { remote := 0, trace := [] }

/-! ## Auxiliary definitions for the statements -/

/-- The `GET` of a single user that `read` issues. -/
def getCall {D : Decls} {σ : Type} (a : UsersAPI D σ) (userID : String) : Call D :=
  { ctx := a.context, method := http.MethodGet, path := "/preview/scim/v2/Users/" ++ userID,
    request := .nil, response := .scimUser }

/-- The number of capability flags of an entity that are set. -/
def flagCount (e : UserEntity) : Nat :=
  (if e.AllowClusterCreate then 1 else 0) + (if e.AllowSQLAnalyticsAccess then 1 else 0) +
    (if e.AllowInstancePoolCreate then 1 else 0)

/-! ## Create: the entitlement list of the payload -/

/-- C1: `Create e` issues one `POST` whose body is `e.toRequest`, and the
entitlement list of that body holds, in the fixed order cluster-create,
sql-analytics-access, instance-pool-create, exactly one record per true flag
and none for a false flag: each token is present iff its flag is set, the list
has no duplicates, its length is the number of true flags, it is empty when no
flag is set and it is `[allow-cluster-create]` when only that flag is set. -/
theorem Create_payload_entitlements {D : Decls} {σ : Type} (a : UsersAPI D σ) (e : UserEntity)
    (w : World D σ) :
    (a.Create e w).2.trace = w.trace ++
      [{ ctx := a.context, method := http.MethodPost, path := "/preview/scim/v2/Users",
         request := .scimUser (e.toRequest D), response := .scimUser }] ∧
    (e.toRequest D).Entitlements =
      (if e.AllowClusterCreate then [{ Value := "allow-cluster-create" }] else []) ++
      (if e.AllowSQLAnalyticsAccess then [{ Value := "sql-analytics-access" }] else []) ++
      (if e.AllowInstancePoolCreate then [{ Value := "allow-instance-pool-create" }] else []) ∧
    (({ Value := "allow-cluster-create" } : entitlementsListItem) ∈ (e.toRequest D).Entitlements ↔
      e.AllowClusterCreate = true) ∧
    (({ Value := "sql-analytics-access" } : entitlementsListItem) ∈ (e.toRequest D).Entitlements ↔
      e.AllowSQLAnalyticsAccess = true) ∧
    (({ Value := "allow-instance-pool-create" } : entitlementsListItem) ∈
      (e.toRequest D).Entitlements ↔ e.AllowInstancePoolCreate = true) ∧
    (∀ ent ∈ (e.toRequest D).Entitlements, ent.Value = "allow-cluster-create" ∨
      ent.Value = "sql-analytics-access" ∨ ent.Value = "allow-instance-pool-create") ∧
    (e.toRequest D).Entitlements.Nodup ∧
    (e.toRequest D).Entitlements.length = flagCount e ∧
    (e.AllowClusterCreate = false ∧ e.AllowSQLAnalyticsAccess = false ∧
      e.AllowInstancePoolCreate = false → (e.toRequest D).Entitlements = []) ∧
    (e.AllowClusterCreate = true ∧ e.AllowSQLAnalyticsAccess = false ∧
      e.AllowInstancePoolCreate = false →
      (e.toRequest D).Entitlements = [{ Value := "allow-cluster-create" }]) := by
  refine ⟨rfl, ?_⟩
  obtain ⟨n, d, act, cc, sq, ip⟩ := e
  cases cc <;> cases sq <;> cases ip <;> simp [UserEntity.toRequest, flagCount]

/-- C1 at `sampleEntity` with only the cluster-create flag kept: the payload
carries the single record `allow-cluster-create`. -/
theorem Create_payload_entitlements_witness :
    (({ sampleEntity with AllowSQLAnalyticsAccess := false, AllowInstancePoolCreate := false }
        : UserEntity).toRequest sampleDecls).Entitlements = [{ Value := "allow-cluster-create" }] :=
  (Create_payload_entitlements okAPI
    { sampleEntity with AllowSQLAnalyticsAccess := false, AllowInstancePoolCreate := false }
    world0).2.2.2.2.2.2.2.2.2 ⟨rfl, rfl, rfl⟩

/-! ## Update: read, then replace -/

/-- C2: when the preliminary `GET` of `Update userID e` fails with error `x`,
`Update` returns exactly `x`, the `GET` is the only call it issues (so no `PUT`
reaches the transport) and the transport is left in the state the `GET` left
it in. -/
theorem Update_read_failure {D : Decls} {σ : Type} (a : UsersAPI D σ) (userID : String)
    (e : UserEntity) (w : World D σ) (x : D.Error)
    (hget : (a.client.Scim a.context http.MethodGet ("/preview/scim/v2/Users/" ++ userID)
      .nil .scimUser w.remote).1.1 = some x) :
    (a.Update userID e w).1 = some x ∧
    (a.Update userID e w).2.trace = w.trace ++ [getCall a userID] ∧
    (∀ c ∈ (a.Update userID e w).2.trace.drop w.trace.length, c.method ≠ http.MethodPut) ∧
    (a.Update userID e w).2.remote =
      (a.client.Scim a.context http.MethodGet ("/preview/scim/v2/Users/" ++ userID)
        .nil .scimUser w.remote).2 := by
  have hu : a.Update userID e w = (some x, (a.read userID w).2) := by
    simp only [UsersAPI.Update, UsersAPI.read, UsersAPI.readByPath, UsersAPI.scim, hget]
  rw [hu]
  refine ⟨rfl, rfl, ?_, rfl⟩
  simp [UsersAPI.read, UsersAPI.readByPath, UsersAPI.scim, http.MethodGet, http.MethodPut]

/-- C2 at the always-failing sample client: `Update` returns `boom` after the
single `GET`. -/
theorem Update_read_failure_witness :
    (failAPI.Update "7" sampleEntity world0).1 = some "boom" ∧
    (failAPI.Update "7" sampleEntity world0).2.trace = world0.trace ++ [getCall failAPI "7"] :=
  let h := Update_read_failure failAPI "7" sampleEntity world0 "boom" rfl
  ⟨h.1, h.2.1⟩

/-- C3: when the `GET` of `Update userID e` succeeds and delivers the wire user
`wu`, `Update` issues exactly two calls, that `GET` and then one `PUT` to the
same path with no response destination; the body of the `PUT` has the groups
and roles of `wu` and, in every other field, what `e.toRequest` has; `Update`
returns the result of the `PUT`. -/
theorem Update_read_success {D : Decls} {σ : Type} (a : UsersAPI D σ) (userID : String)
    (e : UserEntity) (w : World D σ)
    (hget : (a.client.Scim a.context http.MethodGet ("/preview/scim/v2/Users/" ++ userID)
      .nil .scimUser w.remote).1.1 = none) :
    ∃ body : ScimUser D,
      (a.Update userID e w).2.trace = w.trace ++ [getCall a userID,
        { ctx := a.context, method := http.MethodPut, path := "/preview/scim/v2/Users/" ++ userID,
          request := .scimUser body, response := .nil }] ∧
      body.Groups = (a.client.Scim a.context http.MethodGet ("/preview/scim/v2/Users/" ++ userID)
        .nil .scimUser w.remote).1.2.Groups ∧
      body.Roles = (a.client.Scim a.context http.MethodGet ("/preview/scim/v2/Users/" ++ userID)
        .nil .scimUser w.remote).1.2.Roles ∧
      body.Schemas = [D.UserSchema] ∧
      body.Schemas = (e.toRequest D).Schemas ∧
      body.UserName = e.UserName ∧ body.UserName = (e.toRequest D).UserName ∧
      body.DisplayName = e.DisplayName ∧ body.DisplayName = (e.toRequest D).DisplayName ∧
      body.Active = e.Active ∧ body.Active = (e.toRequest D).Active ∧
      body.Entitlements = (e.toRequest D).Entitlements ∧
      (a.Update userID e w).1 =
        (a.client.Scim a.context http.MethodPut ("/preview/scim/v2/Users/" ++ userID)
          (.scimUser body) .nil
          (a.client.Scim a.context http.MethodGet ("/preview/scim/v2/Users/" ++ userID)
            .nil .scimUser w.remote).2).1.1 ∧
      (a.Update userID e w).2.remote =
        (a.client.Scim a.context http.MethodPut ("/preview/scim/v2/Users/" ++ userID)
          (.scimUser body) .nil
          (a.client.Scim a.context http.MethodGet ("/preview/scim/v2/Users/" ++ userID)
            .nil .scimUser w.remote).2).2 := by
  refine ⟨{ e.toRequest D with
      Groups := (a.client.Scim a.context http.MethodGet ("/preview/scim/v2/Users/" ++ userID)
        .nil .scimUser w.remote).1.2.Groups
      Roles := (a.client.Scim a.context http.MethodGet ("/preview/scim/v2/Users/" ++ userID)
        .nil .scimUser w.remote).1.2.Roles }, ?_, rfl, rfl, rfl, rfl, rfl, rfl, rfl, rfl, rfl, rfl,
      rfl, ?_, ?_⟩ <;>
  simp [UsersAPI.Update, UsersAPI.read, UsersAPI.readByPath, UsersAPI.scim, hget, getCall]

/-- C3 at the always-succeeding sample client: the `PUT` that follows the `GET`
carries the groups and roles of `sampleUser`. -/
theorem Update_read_success_witness :
    ∃ body : ScimUser sampleDecls,
      (okAPI.Update "7" sampleEntity world0).2.trace = world0.trace ++ [getCall okAPI "7",
        { ctx := (), method := http.MethodPut, path := "/preview/scim/v2/Users/7",
          request := .scimUser body, response := .nil }] ∧
      body.Groups = ["admins"] ∧ body.Roles = ["arn:aws:iam::1:instance-profile/p"] :=
  let ⟨body, h⟩ := Update_read_success okAPI "7" sampleEntity world0 rfl
  ⟨body, h.1, h.2.1, h.2.2.1⟩

/-! ## Read: the mapping back to the entity -/

/-- What the loop of `Read` computes from any starting entity: the name, the
display name, the active flag and the sql-analytics flag are not touched; the
cluster-create flag is raised by any record holding the first token; the
instance-pool flag by any record holding the second token and not the first. -/
theorem foldl_readEntitlement (D : Decls) (ents : List entitlementsListItem) (ru : UserEntity) :
    ents.foldl (readEntitlement D) ru =
      { ru with
        AllowClusterCreate := ru.AllowClusterCreate ||
          ents.any (fun ent => decide (ent.Value = D.AllowClusterCreateEntitlement))
        AllowInstancePoolCreate := ru.AllowInstancePoolCreate ||
          ents.any (fun ent => !decide (ent.Value = D.AllowClusterCreateEntitlement) &&
            decide (ent.Value = D.AllowInstancePoolCreateEntitlement)) } := by
  induction ents generalizing ru with
  | nil => simp
  | cons ent rest ih =>
    rw [List.foldl_cons, ih]
    unfold readEntitlement
    by_cases h1 : ent.Value = D.AllowClusterCreateEntitlement
    · have d1 := decide_eq_true h1
      simp only [if_pos h1, List.any_cons, d1, Bool.not_true, Bool.false_and, Bool.false_or,
        Bool.true_or, Bool.or_true]
    · have d1 := decide_eq_false h1
      by_cases h2 : ent.Value = D.AllowInstancePoolCreateEntitlement
      · have d2 := decide_eq_true h2
        simp only [if_neg h1, if_pos h2, List.any_cons, d1, d2, Bool.not_false, Bool.and_true,
          Bool.false_or, Bool.true_or, Bool.or_true]
      · have d2 := decide_eq_false h2
        simp only [if_neg h1, if_neg h2, List.any_cons, d1, d2, Bool.and_false, Bool.false_or]

/-- Filtering a list by `p` does not change whether some element satisfies `q`,
when `q` implies `p`. -/
theorem any_filter_of_imp {α : Type} (l : List α) (p q : α → Bool)
    (h : ∀ x, q x = true → p x = true) : (l.filter p).any q = l.any q := by
  induction l with
  | nil => rfl
  | cons x xs ih =>
    by_cases hp : p x = true
    · rw [List.filter_cons_of_pos hp, List.any_cons, List.any_cons, ih]
    · have hq : q x = false := by
        cases hqx : q x with
        | false => rfl
        | true => exact absurd (h x hqx) hp
      rw [List.filter_cons_of_neg hp, List.any_cons, hq, Bool.false_or, ih]

/-- A successful `Read` in closed form: one `GET`, then the loop over the
entitlements of the delivered wire user, started from the entity that has the
three copied fields and no flag set. -/
theorem Read_of_success {D : Decls} {σ : Type} (a : UsersAPI D σ) (userID : String)
    (w : World D σ)
    (hget : (a.client.Scim a.context http.MethodGet ("/preview/scim/v2/Users/" ++ userID)
      .nil .scimUser w.remote).1.1 = none) :
    a.Read userID w =
      (((a.client.Scim a.context http.MethodGet ("/preview/scim/v2/Users/" ++ userID)
          .nil .scimUser w.remote).1.2.Entitlements.foldl (readEntitlement D)
          { UserName := (a.client.Scim a.context http.MethodGet
              ("/preview/scim/v2/Users/" ++ userID) .nil .scimUser w.remote).1.2.UserName
            DisplayName := (a.client.Scim a.context http.MethodGet
              ("/preview/scim/v2/Users/" ++ userID) .nil .scimUser w.remote).1.2.DisplayName
            Active := (a.client.Scim a.context http.MethodGet
              ("/preview/scim/v2/Users/" ++ userID) .nil .scimUser w.remote).1.2.Active
            AllowClusterCreate := false
            AllowSQLAnalyticsAccess := false
            AllowInstancePoolCreate := false }, none),
        { remote := (a.client.Scim a.context http.MethodGet
            ("/preview/scim/v2/Users/" ++ userID) .nil .scimUser w.remote).2
          trace := w.trace ++ [getCall a userID] }) := by
  simp only [UsersAPI.Read, UsersAPI.read, UsersAPI.readByPath, UsersAPI.scim, hget,
    UserEntity.zero, getCall]

/-- C4: when the `GET` of `Read userID` succeeds and delivers the wire user
`wu`, `Read` returns no error and the entity whose name, display name and
active flag are those of `wu`, whose cluster-create flag is set iff some
entitlement of `wu` holds the cluster-create token, whose instance-pool flag
is set iff some entitlement of `wu` holds the instance-pool-create token, and
whose sql-analytics flag is false; entitlements holding any other token can be
dropped from `wu` without changing the result. -/
theorem Read_mapping {D : Decls} {σ : Type} (a : UsersAPI D σ) (userID : String)
    (w : World D σ)
    (hne : D.AllowClusterCreateEntitlement ≠ D.AllowInstancePoolCreateEntitlement)
    (hget : (a.client.Scim a.context http.MethodGet ("/preview/scim/v2/Users/" ++ userID)
      .nil .scimUser w.remote).1.1 = none) :
    (a.Read userID w).1.2 = none ∧
    (a.Read userID w).2.trace = w.trace ++ [getCall a userID] ∧
    (a.Read userID w).1.1.UserName = (a.client.Scim a.context http.MethodGet
      ("/preview/scim/v2/Users/" ++ userID) .nil .scimUser w.remote).1.2.UserName ∧
    (a.Read userID w).1.1.DisplayName = (a.client.Scim a.context http.MethodGet
      ("/preview/scim/v2/Users/" ++ userID) .nil .scimUser w.remote).1.2.DisplayName ∧
    (a.Read userID w).1.1.Active = (a.client.Scim a.context http.MethodGet
      ("/preview/scim/v2/Users/" ++ userID) .nil .scimUser w.remote).1.2.Active ∧
    ((a.Read userID w).1.1.AllowClusterCreate = true ↔
      ∃ ent ∈ (a.client.Scim a.context http.MethodGet ("/preview/scim/v2/Users/" ++ userID)
        .nil .scimUser w.remote).1.2.Entitlements,
        ent.Value = D.AllowClusterCreateEntitlement) ∧
    ((a.Read userID w).1.1.AllowInstancePoolCreate = true ↔
      ∃ ent ∈ (a.client.Scim a.context http.MethodGet ("/preview/scim/v2/Users/" ++ userID)
        .nil .scimUser w.remote).1.2.Entitlements,
        ent.Value = D.AllowInstancePoolCreateEntitlement) ∧
    (a.Read userID w).1.1.AllowSQLAnalyticsAccess = false ∧
    (a.Read userID w).1.1 =
      ((a.client.Scim a.context http.MethodGet ("/preview/scim/v2/Users/" ++ userID)
        .nil .scimUser w.remote).1.2.Entitlements.filter
          (fun ent => decide (ent.Value = D.AllowClusterCreateEntitlement ∨
            ent.Value = D.AllowInstancePoolCreateEntitlement))).foldl (readEntitlement D)
        { UserName := (a.client.Scim a.context http.MethodGet
            ("/preview/scim/v2/Users/" ++ userID) .nil .scimUser w.remote).1.2.UserName
          DisplayName := (a.client.Scim a.context http.MethodGet
            ("/preview/scim/v2/Users/" ++ userID) .nil .scimUser w.remote).1.2.DisplayName
          Active := (a.client.Scim a.context http.MethodGet
            ("/preview/scim/v2/Users/" ++ userID) .nil .scimUser w.remote).1.2.Active
          AllowClusterCreate := false
          AllowSQLAnalyticsAccess := false
          AllowInstancePoolCreate := false } := by
  have hip : ∀ ent : entitlementsListItem, ent.Value = D.AllowInstancePoolCreateEntitlement →
      ent.Value ≠ D.AllowClusterCreateEntitlement := fun ent h1 h2 => hne (h2.symm.trans h1)
  rw [Read_of_success a userID w hget]
  generalize (a.client.Scim a.context http.MethodGet ("/preview/scim/v2/Users/" ++ userID)
      .nil .scimUser w.remote).1.2 = wu
  simp only [foldl_readEntitlement]
  refine ⟨trivial, trivial, trivial, trivial, trivial, ?_, ?_, trivial, ?_⟩
  · simp
  · simp only [Bool.false_or, List.any_eq_true, Bool.and_eq_true, Bool.not_eq_true',
      decide_eq_true_eq, decide_eq_false_iff_not]
    constructor
    · rintro ⟨ent, hm, -, h⟩
      exact ⟨ent, hm, h⟩
    · rintro ⟨ent, hm, h⟩
      exact ⟨ent, hm, hip ent h, h⟩
  · congr 1
    · rw [any_filter_of_imp]
      intro ent h
      simp only [decide_eq_true_eq] at h
      simp [h]
    · rw [any_filter_of_imp]
      intro ent h
      simp only [Bool.and_eq_true, decide_eq_true_eq] at h
      simp [h.2]

/-- C4 at the sample client, which delivers `sampleUser` (entitlements
sql-analytics-access and allow-cluster-create): only the cluster-create flag
comes back set. -/
theorem Read_mapping_witness :
    (okAPI.Read "7" world0).1.1 =
      { UserName := "ada@example.com", DisplayName := "Ada", Active := true,
        AllowClusterCreate := true, AllowSQLAnalyticsAccess := false,
        AllowInstancePoolCreate := false } ∧
    (okAPI.Read "7" world0).1.1.AllowSQLAnalyticsAccess = false :=
  ⟨rfl, (Read_mapping okAPI "7" world0 (by decide) rfl).2.2.2.2.2.2.2.1⟩

/-- C5: when the `GET` of `Read` delivers the wire user that `Create e` sent,
that is `e.toRequest` (the two entitlement constants being the tokens that
`toRequest` writes), `Read` yields `e` with only the sql-analytics flag forced
to false: name, display name, active flag, cluster-create flag and
instance-pool flag are those of `e`; so the round trip gives back `e` exactly
when `e` has the sql-analytics flag unset. -/
theorem Read_after_Create {D : Decls} {σ : Type} (a : UsersAPI D σ) (userID : String)
    (e : UserEntity) (w0 w : World D σ)
    (hcc : D.AllowClusterCreateEntitlement = "allow-cluster-create")
    (hip : D.AllowInstancePoolCreateEntitlement = "allow-instance-pool-create")
    (hget : (a.client.Scim a.context http.MethodGet ("/preview/scim/v2/Users/" ++ userID)
      .nil .scimUser w.remote).1 = (none, e.toRequest D)) :
    (a.Create e w0).2.trace = w0.trace ++
      [{ ctx := a.context, method := http.MethodPost, path := "/preview/scim/v2/Users",
         request := .scimUser (e.toRequest D), response := .scimUser }] ∧
    (a.Read userID w).1 = ({ e with AllowSQLAnalyticsAccess := false }, none) ∧
    (a.Read userID w).1.1.UserName = e.UserName ∧
    (a.Read userID w).1.1.DisplayName = e.DisplayName ∧
    (a.Read userID w).1.1.Active = e.Active ∧
    (a.Read userID w).1.1.AllowClusterCreate = e.AllowClusterCreate ∧
    (a.Read userID w).1.1.AllowInstancePoolCreate = e.AllowInstancePoolCreate ∧
    (a.Read userID w).1.1.AllowSQLAnalyticsAccess = false ∧
    ((a.Read userID w).1.1 = e ↔ e.AllowSQLAnalyticsAccess = false) := by
  have h1 : (a.client.Scim a.context http.MethodGet ("/preview/scim/v2/Users/" ++ userID)
      .nil .scimUser w.remote).1.1 = none := by rw [hget]
  have h2 : (a.client.Scim a.context http.MethodGet ("/preview/scim/v2/Users/" ++ userID)
      .nil .scimUser w.remote).1.2 = e.toRequest D := by rw [hget]
  have hR : (a.Read userID w).1 = ({ e with AllowSQLAnalyticsAccess := false }, none) := by
    rw [Read_of_success a userID w h1, h2, foldl_readEntitlement, hcc, hip]
    obtain ⟨n, d, act, cc, sq, ip⟩ := e
    cases cc <;> cases sq <;> cases ip <;> simp [UserEntity.toRequest]
  refine ⟨rfl, hR, ?_, ?_, ?_, ?_, ?_, ?_, ?_⟩ <;> rw [hR]
  obtain ⟨n, d, act, cc, sq, ip⟩ := e
  cases sq <;> simp

/-- C5 at the sample entity, which has every flag set: after the round trip
the cluster-create and instance-pool flags are still set and the sql-analytics
flag is not. -/
theorem Read_after_Create_witness :
    ((deliverAPI (sampleEntity.toRequest sampleDecls)).Read "7" world0).1 =
      ({ sampleEntity with AllowSQLAnalyticsAccess := false }, none) :=
  (Read_after_Create (deliverAPI (sampleEntity.toRequest sampleDecls)) "7" sampleEntity
    world0 world0 rfl rfl rfl).2.1

/-! ## Filter -/

/-- C6: `Filter f` issues one `GET` to the users collection with a `UserList`
destination; its parameter map is empty, so has no key `filter`, when `f` is
the empty string, and is the single binding of `filter` to `f` otherwise; on
success `Filter` returns the `Resources` of the delivered list, as delivered. -/
theorem Filter_request {D : Decls} {σ : Type} (a : UsersAPI D σ) (f : String)
    (w : World D σ) :
    ∃ req : List (String × String),
      (a.Filter f w).2.trace = w.trace ++
        [{ ctx := a.context, method := http.MethodGet, path := "/preview/scim/v2/Users",
           request := .params req, response := .userList }] ∧
      (f = "" → req = [] ∧ req.lookup "filter" = none) ∧
      (f ≠ "" → req = [("filter", f)] ∧ req.lookup "filter" = some f) ∧
      ((a.client.Scim a.context http.MethodGet "/preview/scim/v2/Users" (.params req)
          .userList w.remote).1.1 = none →
        (a.Filter f w).1 = (UserList.Resources (a.client.Scim a.context http.MethodGet
          "/preview/scim/v2/Users" (.params req) .userList w.remote).1.2, none)) := by
  refine ⟨if f ≠ "" then [("filter", f)] else [], ?_, ?_, ?_, ?_⟩
  · unfold UsersAPI.Filter
    dsimp only
    split <;> rfl
  · intro h
    simp [h]
  · intro h
    simp [h]
  · intro h
    unfold UsersAPI.Filter
    dsimp only
    split
    · next x hx =>
      rw [UsersAPI.scim] at hx
      dsimp only at hx
      rw [h] at hx
      cases hx
    · rfl

/-- C6 at a non-empty filter on the sample client: the request carries that
filter and the delivered list comes back. -/
theorem Filter_request_witness :
    ∃ req : List (String × String),
      (okAPI.Filter "userName co ada" world0).2.trace = world0.trace ++
        [{ ctx := (), method := http.MethodGet, path := "/preview/scim/v2/Users",
           request := .params req, response := .userList }] ∧
      req = [("filter", "userName co ada")] ∧
      (okAPI.Filter "userName co ada" world0).1 = ([sampleUser], none) :=
  let ⟨req, h⟩ := Filter_request okAPI "userName co ada" world0
  ⟨req, h.1, (h.2.2.1 (by decide)).1, rfl⟩

/-! ## Me -/

/-- C7, as the code has it: `Me` issues a single `GET` to `/preview/scim/v2/Me`
with a nil request and a `ScimUser` destination, and returns the wire user the
transport delivered, as delivered, together with the error of the transport;
no identifier is involved and no mapping to a `UserEntity` takes place.  What
`Me` shares with `Read` is the transport step `readByPath`. -/
theorem Me_returns_wire_user {D : Decls} {σ : Type} (a : UsersAPI D σ) (w : World D σ)
    (userID : String) :
    (a.Me w).2.trace = w.trace ++
      [{ ctx := a.context, method := http.MethodGet, path := "/preview/scim/v2/Me",
         request := .nil, response := .scimUser }] ∧
    (a.Me w).1.1 = (a.client.Scim a.context http.MethodGet "/preview/scim/v2/Me"
      .nil .scimUser w.remote).1.2 ∧
    (a.Me w).1.2 = (a.client.Scim a.context http.MethodGet "/preview/scim/v2/Me"
      .nil .scimUser w.remote).1.1 ∧
    (a.Me w).2.remote = (a.client.Scim a.context http.MethodGet "/preview/scim/v2/Me"
      .nil .scimUser w.remote).2 ∧
    a.Me w = a.readByPath "/preview/scim/v2/Me" w ∧
    a.read userID w = a.readByPath ("/preview/scim/v2/Users/" ++ userID) w :=
  ⟨rfl, rfl, rfl, rfl, rfl, rfl⟩

/-- C7 as stated fails: on a transport that delivers `sampleUser`, `Me` returns
`sampleUser` itself, with its entitlement records, groups and roles, not an
entity with boolean flags; and the result of `Me` is not a function of the
entity that `Read` produces from the same wire user, since two wire users that
differ in their groups only are mapped by `Read` to one entity and are told
apart by `Me`. -/
theorem Me_is_not_Read_mapping :
    ((deliverAPI sampleUser).Me world0).1.1 = sampleUser ∧
    ((deliverAPI sampleUser).Me world0).1.1.Entitlements =
      [{ Value := "sql-analytics-access" }, { Value := "allow-cluster-create" }] ∧
    ((deliverAPI sampleUser).Read "7" world0).1.1.AllowSQLAnalyticsAccess = false ∧
    ¬ ∃ f : UserEntity → ScimUser sampleDecls, ∀ u : ScimUser sampleDecls,
      ((deliverAPI u).Me world0).1.1 = f ((deliverAPI u).Read "7" world0).1.1 := by
  refine ⟨rfl, rfl, rfl, ?_⟩
  rintro ⟨f, hf⟩
  have h1 := hf sampleUser
  have h2 := hf { sampleUser with Groups := [] }
  have hr : ((deliverAPI sampleUser).Read "7" world0).1.1 =
      ((deliverAPI { sampleUser with Groups := [] }).Read "7" world0).1.1 := rfl
  rw [← hr, ← h1] at h2
  have h3 : ((deliverAPI { sampleUser with Groups := [] }).Me world0).1.1.Groups =
      ((deliverAPI sampleUser).Me world0).1.1.Groups := congrArg ScimUser.Groups h2
  have h4 : ([] : List String) = ["admins"] := h3
  cases h4

/-! ## Delete and Patch -/

/-- C8: `Delete userID` issues exactly one call, with method `DELETE`, path
`/preview/scim/v2/Users/` followed by `userID`, a nil request and a nil
response destination, and returns the result of that call. -/
theorem Delete_single_call {D : Decls} {σ : Type} (a : UsersAPI D σ) (userID : String)
    (w : World D σ) :
    (a.Delete userID w).2.trace = w.trace ++
      [{ ctx := a.context, method := "DELETE", path := "/preview/scim/v2/Users/" ++ userID,
         request := .nil, response := .nil }] ∧
    (a.Delete userID w).1 = (a.client.Scim a.context "DELETE"
      ("/preview/scim/v2/Users/" ++ userID) .nil .nil w.remote).1.1 ∧
    (a.Delete userID w).2.remote = (a.client.Scim a.context "DELETE"
      ("/preview/scim/v2/Users/" ++ userID) .nil .nil w.remote).2 :=
  ⟨rfl, rfl, rfl⟩

/-- C10: `Patch userID r` issues exactly one call, a `PATCH` to
`/preview/scim/v2/Users/` followed by `userID` whose request is `r` itself and
whose response destination is nil; no `GET` precedes it; `Patch` returns the
result of that call. -/
theorem Patch_single_call {D : Decls} {σ : Type} (a : UsersAPI D σ) (userID : String)
    (r : D.patchRequest) (w : World D σ) :
    (a.Patch userID r w).2.trace = w.trace ++
      [{ ctx := a.context, method := "PATCH", path := "/preview/scim/v2/Users/" ++ userID,
         request := .patch r, response := .nil }] ∧
    (∀ c ∈ (a.Patch userID r w).2.trace.drop w.trace.length, c.method ≠ http.MethodGet) ∧
    (a.Patch userID r w).1 = (a.client.Scim a.context "PATCH"
      ("/preview/scim/v2/Users/" ++ userID) (.patch r) .nil w.remote).1.1 ∧
    (a.Patch userID r w).2.remote = (a.client.Scim a.context "PATCH"
      ("/preview/scim/v2/Users/" ++ userID) (.patch r) .nil w.remote).2 := by
  refine ⟨rfl, ?_, rfl, rfl⟩
  simp [UsersAPI.Patch, UsersAPI.scim, http.MethodGet, http.MethodPatch]

/-! ## Failure of the transport call -/

/-- C9: for each of `Create`, `Filter`, `Read`, `Me`, `Patch` and `Delete`: when
the transport call of the operation fails with error `x`, the operation
returns exactly `x`, and that call is the only one it issues; a failed
`Filter` returns no list and a failed `Read` returns the zero-valued entity. -/
theorem transport_failure_propagates {D : Decls} {σ : Type} (a : UsersAPI D σ)
    (w : World D σ) (x : D.Error) (e : UserEntity) (f userID : String) (r : D.patchRequest) :
    ((a.client.Scim a.context http.MethodPost "/preview/scim/v2/Users"
        (.scimUser (e.toRequest D)) .scimUser w.remote).1.1 = some x →
      (a.Create e w).1.2 = some x ∧
      (a.Create e w).2.trace = w.trace ++
        [{ ctx := a.context, method := http.MethodPost, path := "/preview/scim/v2/Users",
           request := .scimUser (e.toRequest D), response := .scimUser }]) ∧
    ((a.client.Scim a.context http.MethodGet "/preview/scim/v2/Users"
        (.params (if f ≠ "" then [("filter", f)] else [])) .userList w.remote).1.1 = some x →
      (a.Filter f w).1 = ([], some x) ∧
      (a.Filter f w).2.trace = w.trace ++
        [{ ctx := a.context, method := http.MethodGet, path := "/preview/scim/v2/Users",
           request := .params (if f ≠ "" then [("filter", f)] else []),
           response := .userList }]) ∧
    ((a.client.Scim a.context http.MethodGet ("/preview/scim/v2/Users/" ++ userID)
        .nil .scimUser w.remote).1.1 = some x →
      (a.Read userID w).1 = (UserEntity.zero, some x) ∧
      (a.Read userID w).2.trace = w.trace ++ [getCall a userID]) ∧
    ((a.client.Scim a.context http.MethodGet "/preview/scim/v2/Me"
        .nil .scimUser w.remote).1.1 = some x →
      (a.Me w).1.2 = some x ∧
      (a.Me w).2.trace = w.trace ++
        [{ ctx := a.context, method := http.MethodGet, path := "/preview/scim/v2/Me",
           request := .nil, response := .scimUser }]) ∧
    ((a.client.Scim a.context http.MethodPatch ("/preview/scim/v2/Users/" ++ userID)
        (.patch r) .nil w.remote).1.1 = some x →
      (a.Patch userID r w).1 = some x ∧
      (a.Patch userID r w).2.trace = w.trace ++
        [{ ctx := a.context, method := http.MethodPatch,
           path := "/preview/scim/v2/Users/" ++ userID, request := .patch r,
           response := .nil }]) ∧
    ((a.client.Scim a.context http.MethodDelete ("/preview/scim/v2/Users/" ++ userID)
        .nil .nil w.remote).1.1 = some x →
      (a.Delete userID w).1 = some x ∧
      (a.Delete userID w).2.trace = w.trace ++
        [{ ctx := a.context, method := http.MethodDelete,
           path := "/preview/scim/v2/Users/" ++ userID, request := .nil,
           response := .nil }]) := by
  refine ⟨fun h => ⟨h, rfl⟩, fun h => ?_, fun h => ?_, fun h => ⟨h, rfl⟩, fun h => ⟨h, rfl⟩,
    fun h => ⟨h, rfl⟩⟩
  · simp only [UsersAPI.Filter, UsersAPI.scim, h]
    exact ⟨trivial, trivial⟩
  · simp only [UsersAPI.Read, UsersAPI.read, UsersAPI.readByPath, UsersAPI.scim, h, getCall]
    exact ⟨trivial, trivial⟩

/-- C9 at the always-failing sample client: each of the six operations returns
`boom` after its single call. -/
theorem transport_failure_propagates_witness :
    (failAPI.Create sampleEntity world0).1.2 = some "boom" ∧
    (failAPI.Filter "" world0).1 = ([], some "boom") ∧
    (failAPI.Read "7" world0).1 = (UserEntity.zero, some "boom") ∧
    (failAPI.Me world0).1.2 = some "boom" ∧
    (failAPI.Patch "7" "op" world0).1 = some "boom" ∧
    (failAPI.Delete "7" world0).1 = some "boom" ∧
    (failAPI.Delete "7" world0).2.trace.length = 1 :=
  let h := transport_failure_propagates failAPI world0 "boom" sampleEntity "" "7" "op"
  ⟨(h.1 rfl).1, (h.2.1 rfl).1, (h.2.2.1 rfl).1, (h.2.2.2.1 rfl).1, (h.2.2.2.2.1 rfl).1,
    (h.2.2.2.2.2 rfl).1, congrArg List.length (h.2.2.2.2.2 rfl).2⟩

end Identity
